import Mathlib

/-!
Shallow embedding of the lsdk-linux source bundle:
* `drivers/gpu/drm/bridge/cadence/cdns-mhdp-common.c` — mailbox transport,
  command layer, link training, video timing configuration;
* `drivers/pci/controller/mobiveil/pcie-layerscape-gen4.c` — config-space
  read special case.

The mailbox hardware is abstracted as an oracle (`MboxIO`): `rx n` is the
outcome of the n-th byte read (`none` = the empty flag never clears within
the poll bound, so the read times out; `some b` = the byte read from
`MAILBOX0_RD_DATA`, masked to 8 bits), and `wr n` tells whether the n-th
byte-write poll of the full flag succeeds.  The evolving channel state
(`MState`) counts reads and write attempts performed and records the bytes
successfully written, so that theorems can talk about exactly how many
bytes an operation consumed and produced.
-/

namespace LsdkLinux

/-- Linux errno used by the driver: poll timeout. -/
def ETIMEDOUT : Int := 110

/-- Linux errno used by the driver: invalid argument / invalid response. -/
def EINVAL : Int := 22

deriving instance DecidableEq for Except

/-- Hardware oracle for the mailbox channel. -/
structure MboxIO where
  rx : Nat → Option Nat
  wr : Nat → Bool

/-- Channel state: reads performed, write attempts performed, bytes sent. -/
structure MState where
  rp : Nat
  wp : Nat
  sent : List Nat
deriving DecidableEq, Repr

/-- Byte delivered by the n-th mailbox read (0 when that read times out);
`cdns_mhdp_mailbox_read` masks the data register with `0xff`. -/
def rxByte (io : MboxIO) (n : Nat) : Nat :=
  match io.rx n with
  | some b => b % 256
  | none => 0

/-- The bytes delivered by `n` consecutive mailbox reads starting at
read index `start` (meaningful when all of them succeed). -/
def rxList (io : MboxIO) (start : Nat) : Nat → List Nat
  | 0 => []
  | n + 1 => rxByte io start :: rxList io (start + 1) n

/-- `cdns_mhdp_mailbox_read`: poll the empty flag, then read one byte
(`& 0xff`); on poll timeout return `-ETIMEDOUT`. -/
def cdns_mhdp_mailbox_read (io : MboxIO) (s : MState) : Int × MState :=
  match io.rx s.rp with
  | none => (-ETIMEDOUT, { s with rp := s.rp + 1 })
  | some b => (((b % 256 : Nat) : Int), { s with rp := s.rp + 1 })

/-- `cdp_dp_mailbox_write`: poll the full flag, then write one byte; on
poll timeout return `-ETIMEDOUT` without writing. -/
def cdp_dp_mailbox_write (io : MboxIO) (s : MState) (b : Nat) : Int × MState :=
  if io.wr s.wp then
    (0, { s with wp := s.wp + 1, sent := s.sent ++ [b % 256] })
  else
    (-ETIMEDOUT, { s with wp := s.wp + 1 })

/-- Write a list of bytes one at a time, aborting on the first failure
(the byte-write loops of `cdns_mhdp_mailbox_send` and
`cdns_mhdp_set_firmware_active`). -/
def writeBytes (io : MboxIO) (s : MState) : List Nat → Int × MState
  | [] => (0, s)
  | b :: bs =>
    let r := cdp_dp_mailbox_write io s b
    if r.1 = 0 then writeBytes io r.2 bs else r

/-- Read `n` bytes one at a time, aborting on the first failure (the read
loops of `cdns_mhdp_mailbox_validate_receive` header read,
`cdns_mhdp_mailbox_read_receive` and `cdns_mhdp_set_firmware_active`). -/
def readBytes (io : MboxIO) (s : MState) : Nat → Except Int (List Nat) × MState
  | 0 => (.ok [], s)
  | n + 1 =>
    let r := cdns_mhdp_mailbox_read io s
    if r.1 < 0 then (.error r.1, r.2)
    else
      match readBytes io r.2 n with
      | (.ok bs, s') => (.ok (r.1.toNat :: bs), s')
      | (.error e, s') => (.error e, s')

/-- The drain loop of `cdns_mhdp_mailbox_validate_receive`: read and
discard up to `n` bytes, stopping early if a read fails. -/
def drainBytes (io : MboxIO) (s : MState) : Nat → MState
  | 0 => s
  | n + 1 =>
    let r := cdns_mhdp_mailbox_read io s
    if r.1 < 0 then r.2 else drainBytes io r.2 n

/-- 4-byte mailbox frame header: opcode, module id, big-endian length
(`put_unaligned_be16`). -/
def mboxHeader (module_id opcode size : Nat) : List Nat :=
  [opcode % 256, module_id % 256, size / 256 % 256, size % 256]

/-- `cdns_mhdp_mailbox_send`: write the 4-byte header then the payload,
each byte individually gated on the full-flag poll, aborting on the first
failure. -/
def cdns_mhdp_mailbox_send (io : MboxIO) (s : MState) (module_id opcode : Nat)
    (message : List Nat) : Int × MState :=
  writeBytes io s (mboxHeader module_id opcode message.length ++ message)

/-- `cdns_mhdp_mailbox_validate_receive`: read the 4 header bytes
(aborting on a read failure); on a field mismatch drain the declared
payload length and return `-EINVAL`, else return 0. -/
def cdns_mhdp_mailbox_validate_receive (io : MboxIO) (s : MState)
    (module_id opcode req_size : Nat) : Int × MState :=
  match readBytes io s 4 with
  | (.error e, s') => (e, s')
  | (.ok header, s') =>
    let mbox_size := 256 * header[2]! + header[3]!
    if opcode % 256 ≠ header[0]! ∨ module_id % 256 ≠ header[1]! ∨
        req_size % 65536 ≠ mbox_size then
      (-EINVAL, drainBytes io s' mbox_size)
    else
      (0, s')

/-- `cdns_mhdp_mailbox_read_receive`: read exactly `buff_size` bytes,
aborting on the first failure. -/
def cdns_mhdp_mailbox_read_receive (io : MboxIO) (s : MState)
    (buff_size : Nat) : Except Int (List Nat) × MState :=
  readBytes io s buff_size

/-! Opcode and module-id constants.  Modelled from the spec: they are
defined in the header `drm/bridge/cdns-mhdp-common.h`, which is not part
of this bundle; the spec only names the commands ("register-read/write,
field-write, DPCD-read/write, EDID-get, host-capability-set,
training-control, event-read/enable, link-stat-read,
adjust-link-training, HPD-state-get, video-set, main-control(activate)").
All results proved below are independent of the numeric values; they are
only required to be 8-bit quantities. -/

/-- Modelled from the spec: general-module id (missing header constant). -/
def MB_MODULE_ID_GENERAL : Nat := 0x0a

/-- Modelled from the spec: DPTX-module id (missing header constant). -/
def MB_MODULE_ID_DP_TX : Nat := 0x01

/-- Modelled from the spec: main-control (firmware activation) opcode
(missing header constant). -/
def GENERAL_MAIN_CONTROL : Nat := 0x01

/-- Modelled from the spec: register-read opcode (missing header
constant). -/
def GENERAL_READ_REGISTER : Nat := 0x07

/-- Modelled from the spec: firmware-active payload byte (missing header
constant). -/
def FW_ACTIVE : Nat := 1

/-- Modelled from the spec: firmware-standby payload byte (missing header
constant). -/
def FW_STANDBY : Nat := 0

/-- Modelled from the spec: EDID-get opcode (missing header constant). -/
def DPTX_GET_EDID : Nat := 0x02

/-- Modelled from the spec: training-control opcode (missing header
constant). -/
def DPTX_TRAINING_CONTROL : Nat := 0x09

/-- Modelled from the spec: event-read opcode (missing header
constant). -/
def DPTX_READ_EVENT : Nat := 0x0a

/-- Modelled from the spec: link-stat-read opcode (missing header
constant). -/
def DPTX_READ_LINK_STAT : Nat := 0x0b

/-- Modelled from the spec: DPCD-read opcode (missing header constant). -/
def DPTX_READ_DPCD : Nat := 0x30

/-- Modelled from the spec: adjust-link-training opcode (missing header
constant). -/
def DPTX_ADJUST_LT : Nat := 0x35

/-- Modelled from the spec: the start-training request byte (missing
header constant). -/
def LINK_TRAINING_RUN : Nat := 0x1

/-- Modelled from the spec: the equalization-finished flag bit in the
link-status event (missing header constant). -/
def EQ_PHASE_FINISHED : Nat := 4

/-- DPCD lane-status register address.  Modelled from the spec: defined in
the missing header `drm/dp/drm_dp_helper.h`; the source's own comment at
`cdns_mhdp_adjust_lt` fixes it to `0x202` ("Registers 0x202-0x207"). -/
def DP_LANE0_1_STATUS : Nat := 0x202

/-- Big-endian 4-byte encoding (`put_unaligned_be32`). -/
def be32Bytes (v : Nat) : List Nat :=
  [v / 2 ^ 24 % 256, v / 2 ^ 16 % 256, v / 2 ^ 8 % 256, v % 256]

/-- Big-endian 4-byte decoding (`get_unaligned_be32`). -/
def be32Of (bs : List Nat) : Nat :=
  2 ^ 24 * bs[0]! + 2 ^ 16 * bs[1]! + 2 ^ 8 * bs[2]! + bs[3]!

/-- Reinterpret a 32-bit unsigned value as the C `int` the driver returns
it through. -/
def toSigned32 (v : Nat) : Int :=
  if v < 2 ^ 31 then (v : Int) else (v : Int) - 2 ^ 32

/-- `cdns_mhdp_reg_read`: reject address 0 up front, else send the
4-byte big-endian address, validate an 8-byte response, read it, check
the echoed address, and return the decoded value (through a signed
`int`). -/
def cdns_mhdp_reg_read (io : MboxIO) (s : MState) (addr : Nat) : Int × MState :=
  let addr := addr % 2 ^ 32
  if addr = 0 then (-EINVAL, s)
  else
    let msg := be32Bytes addr
    let r1 := cdns_mhdp_mailbox_send io s MB_MODULE_ID_GENERAL
      GENERAL_READ_REGISTER msg
    if r1.1 ≠ 0 then r1
    else
      let r2 := cdns_mhdp_mailbox_validate_receive io r1.2
        MB_MODULE_ID_GENERAL GENERAL_READ_REGISTER 8
      if r2.1 ≠ 0 then r2
      else
        match cdns_mhdp_mailbox_read_receive io r2.2 8 with
        | (.error e, s') => (e, s')
        | (.ok resp, s') =>
          if resp.take 4 ≠ msg then (-EINVAL, s')
          else (toSigned32 (be32Of (resp.drop 4)), s')

/-- `cdns_mhdp_set_firmware_active`: write the fixed 5-byte frame with
the byte-write primitive, then read 5 acknowledgment bytes back with the
byte-read primitive, never validating a header. -/
def cdns_mhdp_set_firmware_active (io : MboxIO) (s : MState) (enable : Bool) :
    Int × MState :=
  let msg := [GENERAL_MAIN_CONTROL, MB_MODULE_ID_GENERAL, 0, 1,
    if enable then FW_ACTIVE else FW_STANDBY]
  let r := writeBytes io s msg
  if r.1 ≠ 0 then r
  else
    match readBytes io r.2 5 with
    | (.ok _, s') => (0, s')
    | (.error e, s') => (e, s')

/-- One attempt of the `cdns_mhdp_get_edid_block` loop body: send the
request, validate, read the 2-byte echo then the EDID data; the `Bool`
records whether the echoed length and half-block index matched the
request (the C `break` condition, reached only with a zero return). -/
def edidTry (io : MboxIO) (s : MState) (block length : Nat) :
    Int × MState × Bool :=
  let msg := [block / 2 % 256, block % 2]
  let r1 := cdns_mhdp_mailbox_send io s MB_MODULE_ID_DP_TX DPTX_GET_EDID msg
  if r1.1 ≠ 0 then (r1.1, r1.2, false)
  else
    let r2 := cdns_mhdp_mailbox_validate_receive io r1.2 MB_MODULE_ID_DP_TX
      DPTX_GET_EDID (2 + length)
    if r2.1 ≠ 0 then (r2.1, r2.2, false)
    else
      match cdns_mhdp_mailbox_read_receive io r2.2 2 with
      | (.error e, s') => (e, s', false)
      | (.ok reg, s') =>
        match cdns_mhdp_mailbox_read_receive io s' length with
        | (.error e, s'') => (e, s'', false)
        | (.ok _, s'') =>
          (0, s'', decide (reg[0]! = length ∧ reg[1]! = block / 2))

/-- The `for (i = 0; i < 4; i++)` retry loop of
`cdns_mhdp_get_edid_block`: break (returning the attempt's zero status)
as soon as an attempt's echo matches, otherwise carry the attempt's
status into the next round and return the last one when the attempts run
out. -/
def edidLoop (io : MboxIO) (block length : Nat) :
    Nat → MState → Int → Int × MState
  | 0, s, last => (last, s)
  | n + 1, s, _ =>
    let r := edidTry io s block length
    if r.2.2 then (r.1, r.2.1)
    else edidLoop io block length n r.2.1 r.1

/-- `cdns_mhdp_get_edid_block`: up to 4 attempts of the request/response
cycle. -/
def cdns_mhdp_get_edid_block (io : MboxIO) (s : MState) (block length : Nat) :
    Int × MState :=
  edidLoop io block length 4 s 0

/-- Channel state after `n` attempts of the EDID loop body. -/
def edidIter (io : MboxIO) (block length : Nat) : Nat → MState → MState
  | 0, s => s
  | n + 1, s => edidIter io block length n (edidTry io s block length).2.1

/-- Negotiated link state (`mhdp->dp.link`): rate and lane count. -/
structure Link where
  rate : Nat
  num_lanes : Nat
deriving DecidableEq, Repr

/-- Modelled from the spec: the drm core's bandwidth-code table
(`drm_dp_bw_code_to_link_rate`, missing from this bundle); the spec says
the negotiated rate is decoded "via a bandwidth-code table". -/
def drm_dp_bw_code_to_link_rate (code : Nat) : Nat := code * 27000

/-- The event-polling loop of `cdns_mhdp_training_start`.  The C loop is
bounded by wall-clock time (`jiffies` against a ~500 ms deadline with a
~20 ms sleep per round); `fuel` is the number of polling rounds the
deadline still allows, and running out of rounds yields `-ETIMEDOUT`. -/
def trainingPoll (io : MboxIO) : Nat → MState → Int × MState
  | 0, s => (-ETIMEDOUT, s)
  | n + 1, s =>
    let r1 := cdns_mhdp_mailbox_send io s MB_MODULE_ID_DP_TX
      DPTX_READ_EVENT []
    if r1.1 ≠ 0 then r1
    else
      let r2 := cdns_mhdp_mailbox_validate_receive io r1.2
        MB_MODULE_ID_DP_TX DPTX_READ_EVENT 2
      if r2.1 ≠ 0 then r2
      else
        match cdns_mhdp_mailbox_read_receive io r2.2 2 with
        | (.error e, s') => (e, s')
        | (.ok event, s') =>
          if event[1]! &&& EQ_PHASE_FINISHED ≠ 0 then (0, s')
          else trainingPoll io n s'

/-- `cdns_mhdp_training_start`: send the start-training command, then
poll the link-status event for the equalization-finished flag. -/
def cdns_mhdp_training_start (io : MboxIO) (s : MState) (fuel : Nat) :
    Int × MState :=
  let r0 := cdns_mhdp_mailbox_send io s MB_MODULE_ID_DP_TX
    DPTX_TRAINING_CONTROL [LINK_TRAINING_RUN]
  if r0.1 ≠ 0 then r0 else trainingPoll io fuel r0.2

/-- `cdns_mhdp_get_training_status`: read the 10-byte link status and
decode the negotiated rate and lane count into the link state. -/
def cdns_mhdp_get_training_status (io : MboxIO) (s : MState) (link : Link) :
    Int × MState × Link :=
  let r1 := cdns_mhdp_mailbox_send io s MB_MODULE_ID_DP_TX
    DPTX_READ_LINK_STAT []
  if r1.1 ≠ 0 then (r1.1, r1.2, link)
  else
    let r2 := cdns_mhdp_mailbox_validate_receive io r1.2 MB_MODULE_ID_DP_TX
      DPTX_READ_LINK_STAT 10
    if r2.1 ≠ 0 then (r2.1, r2.2, link)
    else
      match cdns_mhdp_mailbox_read_receive io r2.2 10 with
      | (.error e, s') => (e, s', link)
      | (.ok status, s') =>
        (0, s', ⟨drm_dp_bw_code_to_link_rate status[0]!, status[1]!⟩)

/-- `cdns_mhdp_train_link`: start (and poll) training, and only on its
success read the detailed status that updates the link state. -/
def cdns_mhdp_train_link (io : MboxIO) (s : MState) (link : Link)
    (fuel : Nat) : Int × MState × Link :=
  let r := cdns_mhdp_training_start io s fuel
  if r.1 ≠ 0 then (r.1, r.2, link)
  else cdns_mhdp_get_training_status io r.2 link

/-- `cdns_mhdp_adjust_lt`: validate the lane count, send the 7-byte
request (3 fixed bytes, `nlanes` lane bytes and the uninitialized stack
remainder `junk`), read the DPCD-read response header, and only when the
echoed 24-bit address is `DP_LANE0_1_STATUS` read the 6 status registers
into the caller's buffer (`some dpcd`; `none` = buffer untouched). -/
def cdns_mhdp_adjust_lt (io : MboxIO) (s : MState) (nlanes udelay : Nat)
    (lanes_data junk : List Nat) : Int × MState × Option (List Nat) :=
  if ¬(nlanes = 4 ∨ nlanes = 2 ∨ nlanes = 1) then (-EINVAL, s, none)
  else
    let payload := [nlanes % 256, udelay / 256 % 256, udelay % 256] ++
      (lanes_data.map (· % 256)).take nlanes ++ junk.take (4 - nlanes)
    let r1 := cdns_mhdp_mailbox_send io s MB_MODULE_ID_DP_TX
      DPTX_ADJUST_LT payload
    if r1.1 ≠ 0 then (r1.1, r1.2, none)
    else
      let r2 := cdns_mhdp_mailbox_validate_receive io r1.2
        MB_MODULE_ID_DP_TX DPTX_READ_DPCD (5 + 6)
      if r2.1 ≠ 0 then (r2.1, r2.2, none)
      else
        match cdns_mhdp_mailbox_read_receive io r2.2 5 with
        | (.error e, s') => (e, s', none)
        | (.ok hdr, s') =>
          let addr := 2 ^ 16 * hdr[2]! + 2 ^ 8 * hdr[3]! + hdr[4]!
          if addr ≠ DP_LANE0_1_STATUS then (0, s', none)
          else
            match cdns_mhdp_mailbox_read_receive io s' 6 with
            | (.error e, s'') => (e, s'', none)
            | (.ok dpcd, s'') => (0, s'', some dpcd)

/-- Modelled from the spec: the transfer-unit base size `TU_SIZE` from
the missing header `drm/bridge/cdns-mhdp-common.h` ("starting at a fixed
base"; the comment in `cdns_mhdp_config_video` sets TU to 32 on the first
round, i.e. the base is 30). -/
def TU_SIZE : Nat := 30

/-- The `u64` subtraction `tu_size_reg - symbol` appearing in the loop
condition of `cdns_mhdp_config_video` (`tu_size_reg` is promoted to
`u64`, so the difference wraps when `symbol` exceeds `tu_size_reg`). -/
def sub64 (a b : Nat) : Nat := (a + 2 ^ 64 - b) % 2 ^ 64

/-- The whole-milli valid-symbol value computed by one round of the
`cdns_mhdp_config_video` search: `tu * clock * bpp` divided by
`lanes * link_rate * 8` (both `do_div` steps fused; integer part is
`tuTotal / 1000`, milli remainder `tuTotal % 1000`). -/
def tuTotal (clock bpp lanes lrate tu : Nat) : Nat :=
  tu * clock * bpp / (lanes * lrate * 8)

/-- The `do { tu_size_reg += 2; ... } while (...)` search of
`cdns_mhdp_config_video`.  `fuel` bounds the rounds; any fuel with
`66 ≤ tu + 2 * fuel` makes the artificial out-of-fuel result
unreachable, because the loop stops by itself once `tu_size_reg`
exceeds 64. -/
def tuSearchF (clock bpp lanes lrate : Nat) : Nat → Nat → Except Int (Nat × Nat)
  | 0, _ => .error (-EINVAL)
  | fuel + 1, tu =>
    let tu' := tu + 2
    let total := tuTotal clock bpp lanes lrate tu'
    let symbol := total / 1000
    let rem := total % 1000
    if 64 < tu' then .error (-EINVAL)
    else if symbol ≤ 1 ∨ sub64 tu' symbol < 4 ∨ 850 < rem ∨ rem < 100 then
      tuSearchF clock bpp lanes lrate fuel tu'
    else
      .ok (tu', symbol)

/-- The transfer-unit search of `cdns_mhdp_config_video`: link rate in
kHz-equivalents (`mhdp->dp.link.rate / 1000`), `tu_size_reg` starting at
`TU_SIZE` (32 rounds of fuel are more than the 18 the 64 cap allows). -/
def cdns_mhdp_config_video_tu (clock bpp lanes rate : Nat) :
    Except Int (Nat × Nat) :=
  tuSearchF clock bpp lanes (rate / 1000) 32 TU_SIZE

/-- The acceptance condition of one search round, as a predicate on the
candidate `tu`: integer part above 1, wrapped margin at least 4, milli
remainder within `[100, 850]`. -/
def tuAccept (clock bpp lanes lrate tu : Nat) : Prop :=
  1 < tuTotal clock bpp lanes lrate tu / 1000 ∧
  ¬ sub64 tu (tuTotal clock bpp lanes lrate tu / 1000) < 4 ∧
  100 ≤ tuTotal clock bpp lanes lrate tu % 1000 ∧
  tuTotal clock bpp lanes lrate tu % 1000 ≤ 850

instance (clock bpp lanes lrate tu : Nat) :
    Decidable (tuAccept clock bpp lanes lrate tu) :=
  inferInstanceAs (Decidable (_ ∧ _ ∧ _ ∧ _))

/-! The PCIe config-read special case
(`drivers/pci/controller/mobiveil/pcie-layerscape-gen4.c`).  The register
traffic of `ls_pcie_g4_read_other_conf` is modelled as an event trace:
LUT register writes and the generic config read, in program order. -/

/-- One register-level event of `ls_pcie_g4_read_other_conf`. -/
inductive PcieEv where
  | lutWrite (off val : Nat)
  | cfgRead (whereReg : Nat)
deriving DecidableEq, Repr

/-- Hardware revision with the read-reordering erratum (source constant
`REV_1_0`). -/
def REV_1_0 : Nat := 0x10

/-- LUT general control register offset (source constant). -/
def PCIE_LUT_GCR : Nat := 0x28

/-- Bit position of the read-response-reordering enable in the GCR
(source constant). -/
def PCIE_LUT_GCR_RRE : Nat := 0

/-- Modelled from the spec: the standard config-space vendor-ID register
offset (`PCI_VENDOR_ID`, from the missing header `linux/pci_regs.h`). -/
def PCI_VENDOR_ID : Nat := 0

/-- `ls_pcie_g4_read_other_conf`: on revision 1.0 a vendor-ID read is
bracketed by clearing and setting the reordering-enable bit; the generic
config read's status and value (`genericRet`, `genericVal`) pass through
untouched. -/
def ls_pcie_g4_read_other_conf (rev whereReg : Nat) (genericRet : Int)
    (genericVal : Nat) : List PcieEv × Int × Nat :=
  let special := rev = REV_1_0 ∧ whereReg = PCI_VENDOR_ID
  let pre := if special then
    [PcieEv.lutWrite PCIE_LUT_GCR (0 <<< PCIE_LUT_GCR_RRE)] else []
  let post := if special then
    [PcieEv.lutWrite PCIE_LUT_GCR (1 <<< PCIE_LUT_GCR_RRE)] else []
  (pre ++ [PcieEv.cfgRead whereReg] ++ post, genericRet, genericVal)

/-! Concrete channel oracles and states used to exhibit runs of the
code. -/

/-- Fresh channel state: nothing read, nothing written. -/
def s0 : MState := ⟨0, 0, []⟩

/-- An unconfigured link state. -/
def link0 : Link := ⟨0, 0⟩

/-- A channel whose response frame carries an unexpected opcode (`0x55`)
with declared payload length 2. -/
def ioValidateMismatch : MboxIO :=
  ⟨fun n => some ([0x55, MB_MODULE_ID_DP_TX, 0, 2, 7, 7].getD n 0),
   fun _ => true⟩

/-- A channel that answers every EDID request with a well-formed frame
whose echoed half-block index (second echo byte = 1) differs from the
requested one (block 0 / index 0); the 7-byte answer repeats forever. -/
def ioEdidAllMismatch : MboxIO :=
  ⟨fun n =>
    some ([DPTX_GET_EDID, MB_MODULE_ID_DP_TX, 0, 3, 1, 1, 170].getD (n % 7) 0),
   fun _ => true⟩

/-- A channel whose very first byte write times out (failing the first
EDID attempt at the send layer) and that then answers with a matching
frame (echoed length 1, half-block index 0). -/
def ioEdidRetry : MboxIO :=
  ⟨fun n => some ([DPTX_GET_EDID, MB_MODULE_ID_DP_TX, 0, 3, 1, 0, 170].getD n 0),
   fun n => decide (n ≠ 0)⟩

/-- A channel that answers every link-status event query with a
well-formed 2-byte event whose second byte never carries
`EQ_PHASE_FINISHED`; the 6-byte answer repeats forever. -/
def ioTrainNoEq : MboxIO :=
  ⟨fun n =>
    some ([DPTX_READ_EVENT, MB_MODULE_ID_DP_TX, 0, 2, 0, 0].getD (n % 6) 0),
   fun _ => true⟩

/-- A register-read response echoing the requested address `0x100` with
register value `0x12345678`. -/
def ioRegEcho : MboxIO :=
  ⟨fun n =>
    some ([GENERAL_READ_REGISTER, MB_MODULE_ID_GENERAL, 0, 8,
      0, 0, 1, 0, 18, 52, 86, 120].getD n 0),
   fun _ => true⟩

/-- A register-read response echoing the requested address `0x100` with
register value `0xffffffff` (all four value bytes 255). -/
def ioRegNeg : MboxIO :=
  ⟨fun n =>
    some ([GENERAL_READ_REGISTER, MB_MODULE_ID_GENERAL, 0, 8,
      0, 0, 1, 0, 255, 255, 255, 255].getD n 0),
   fun _ => true⟩

/-- A channel accepting exactly six byte writes and delivering no
bytes. -/
def ioSendSix : MboxIO := ⟨fun _ => none, fun n => decide (n < 6)⟩

/-- A fully permissive channel: every write is accepted and every read
delivers a zero byte. -/
def ioAck : MboxIO := ⟨fun _ => some 0, fun _ => true⟩

/-- An adjust-link-training response whose DPCD-read echo header carries
address 0 instead of `DP_LANE0_1_STATUS`. -/
def ioAdjustWrongAddr : MboxIO :=
  ⟨fun n =>
    some ([DPTX_READ_DPCD, MB_MODULE_ID_DP_TX, 0, 11, 0, 0, 0, 0, 0].getD n 0),
   fun _ => true⟩

/-! Transport-layer lemmas. -/

theorem map_mod256_eq (l : List Nat) (h : ∀ b ∈ l, b < 256) :
    l.map (· % 256) = l := by
  induction l with
  | nil => rfl
  | cons b bs ih =>
    simp only [List.map_cons, List.cons.injEq]
    exact ⟨Nat.mod_eq_of_lt (h b (by simp)),
      ih fun x hx => h x (by simp [hx])⟩

theorem writeBytes_ok (io : MboxIO) :
    ∀ (l : List Nat) (s : MState), (∀ i < l.length, io.wr (s.wp + i) = true) →
    writeBytes io s l = (0, ⟨s.rp, s.wp + l.length, s.sent ++ l.map (· % 256)⟩) := by
  intro l
  induction l with
  | nil => intro s _; simp [writeBytes]
  | cons b bs ih =>
    intro s h
    have h0 : io.wr s.wp = true := by simpa using h 0 (by simp)
    have hs : writeBytes io ⟨s.rp, s.wp + 1, s.sent ++ [b % 256]⟩ bs =
        (0, ⟨s.rp, s.wp + 1 + bs.length,
          (s.sent ++ [b % 256]) ++ bs.map (· % 256)⟩) := by
      apply ih
      intro i hi
      have := h (i + 1) (by simpa using Nat.succ_lt_succ hi)
      simpa [Nat.add_assoc, Nat.add_comm 1 i] using this
    simp only [writeBytes, cdp_dp_mailbox_write, h0, if_true, reduceIte]
    rw [hs]
    simp [Nat.add_assoc, Nat.add_comm 1 bs.length]

theorem writeBytes_fail (io : MboxIO) :
    ∀ (l : List Nat) (s : MState) (k : Nat), k < l.length →
    io.wr (s.wp + k) = false → (∀ i < k, io.wr (s.wp + i) = true) →
    writeBytes io s l =
      (-ETIMEDOUT, ⟨s.rp, s.wp + k + 1, s.sent ++ (l.take k).map (· % 256)⟩) := by
  intro l
  induction l with
  | nil => intro s k hk; exact absurd hk (by simp)
  | cons b bs ih =>
    intro s k hk hf hpre
    match k with
    | 0 =>
      have h0 : io.wr s.wp = false := by simpa using hf
      simp [writeBytes, cdp_dp_mailbox_write, h0, ETIMEDOUT]
    | k + 1 =>
      have h0 : io.wr s.wp = true := by simpa using hpre 0 (Nat.succ_pos k)
      have hs := ih ⟨s.rp, s.wp + 1, s.sent ++ [b % 256]⟩ k
        (by simpa using Nat.lt_of_succ_lt_succ hk)
        (by simpa [Nat.add_assoc, Nat.add_comm 1 k] using hf)
        (fun i hi => by
          have := hpre (i + 1) (Nat.succ_lt_succ hi)
          simpa [Nat.add_assoc, Nat.add_comm 1 i] using this)
      simp only [writeBytes, cdp_dp_mailbox_write, h0, if_true, reduceIte]
      rw [hs]
      simp [Nat.add_assoc, Nat.add_comm 1 k]

theorem readBytes_ok (io : MboxIO) :
    ∀ (n : Nat) (s : MState), (∀ j < n, (io.rx (s.rp + j)).isSome) →
    readBytes io s n = (.ok (rxList io s.rp n), ⟨s.rp + n, s.wp, s.sent⟩) := by
  intro n
  induction n with
  | zero => intro s _; simp [readBytes, rxList]
  | succ n ih =>
    intro s h
    obtain ⟨b, hb⟩ := Option.isSome_iff_exists.mp (h 0 (Nat.succ_pos n))
    rw [Nat.add_zero] at hb
    have hs : readBytes io ⟨s.rp + 1, s.wp, s.sent⟩ n =
        (.ok (rxList io (s.rp + 1) n), ⟨s.rp + 1 + n, s.wp, s.sent⟩) := by
      apply ih
      intro j hj
      have := h (j + 1) (Nat.succ_lt_succ hj)
      simpa [Nat.add_assoc, Nat.add_comm 1 j] using this
    simp only [readBytes, cdns_mhdp_mailbox_read, hb]
    have hnng : ¬ (((b % 256 : Nat) : Int) < 0) :=
      not_lt.mpr (Int.natCast_nonneg _)
    rw [if_neg hnng, hs]
    simp only [Int.toNat_natCast]
    simp [rxList, rxByte, hb, Nat.add_assoc, Nat.add_comm 1 n]

theorem readBytes_fail (io : MboxIO) :
    ∀ (n : Nat) (s : MState) (k : Nat), k < n → io.rx (s.rp + k) = none →
    (∀ j < k, (io.rx (s.rp + j)).isSome) →
    readBytes io s n = (.error (-ETIMEDOUT), ⟨s.rp + k + 1, s.wp, s.sent⟩) := by
  intro n
  induction n with
  | zero => intro s k hk; exact absurd hk (by simp)
  | succ n ih =>
    intro s k hk hf hpre
    match k with
    | 0 =>
      rw [Nat.add_zero] at hf
      simp [readBytes, cdns_mhdp_mailbox_read, hf, ETIMEDOUT]
    | k + 1 =>
      obtain ⟨b, hb⟩ := Option.isSome_iff_exists.mp (hpre 0 (Nat.succ_pos k))
      rw [Nat.add_zero] at hb
      have hs := ih ⟨s.rp + 1, s.wp, s.sent⟩ k
        (Nat.lt_of_succ_lt_succ hk)
        (by simpa [Nat.add_assoc, Nat.add_comm 1 k] using hf)
        (fun j hj => by
          have := hpre (j + 1) (Nat.succ_lt_succ hj)
          simpa [Nat.add_assoc, Nat.add_comm 1 j] using this)
      simp only [readBytes, cdns_mhdp_mailbox_read, hb]
      have hnng : ¬ (((b % 256 : Nat) : Int) < 0) :=
        not_lt.mpr (Int.natCast_nonneg _)
      rw [if_neg hnng, hs]
      simp [Nat.add_assoc, Nat.add_comm 1 k]

theorem drainBytes_all (io : MboxIO) :
    ∀ (n : Nat) (s : MState), (∀ j < n, (io.rx (s.rp + j)).isSome) →
    drainBytes io s n = ⟨s.rp + n, s.wp, s.sent⟩ := by
  intro n
  induction n with
  | zero => intro s _; simp [drainBytes]
  | succ n ih =>
    intro s h
    obtain ⟨b, hb⟩ := Option.isSome_iff_exists.mp (h 0 (Nat.succ_pos n))
    rw [Nat.add_zero] at hb
    have hs : drainBytes io ⟨s.rp + 1, s.wp, s.sent⟩ n =
        ⟨s.rp + 1 + n, s.wp, s.sent⟩ := by
      apply ih
      intro j hj
      have := h (j + 1) (Nat.succ_lt_succ hj)
      simpa [Nat.add_assoc, Nat.add_comm 1 j] using this
    simp only [drainBytes, cdns_mhdp_mailbox_read, hb]
    have hnng : ¬ (((b % 256 : Nat) : Int) < 0) :=
      not_lt.mpr (Int.natCast_nonneg _)
    rw [if_neg hnng, hs]
    simp [Nat.add_assoc, Nat.add_comm 1 n]

theorem rxList_four (io : MboxIO) (p : Nat) :
    rxList io p 4 =
      [rxByte io p, rxByte io (p + 1), rxByte io (p + 2), rxByte io (p + 3)] := by
  simp [rxList, Nat.add_assoc]

theorem mailbox_send_ok (io : MboxIO) (s : MState) (module_id opcode : Nat)
    (message : List Nat)
    (hw : ∀ i < 4 + message.length, io.wr (s.wp + i) = true) :
    cdns_mhdp_mailbox_send io s module_id opcode message =
      (0, ⟨s.rp, s.wp + (4 + message.length),
        s.sent ++ (mboxHeader module_id opcode message.length ++
          message).map (· % 256)⟩) := by
  unfold cdns_mhdp_mailbox_send
  rw [writeBytes_ok io _ s
    (fun i hi => hw i (by simp [mboxHeader] at hi; omega))]
  simp [mboxHeader]
  omega

theorem validate_receive_match (io : MboxIO) (s : MState)
    (module_id opcode req_size : Nat)
    (hr : ∀ j < 4, (io.rx (s.rp + j)).isSome)
    (h0 : opcode % 256 = rxByte io s.rp)
    (h1 : module_id % 256 = rxByte io (s.rp + 1))
    (h2 : req_size % 65536 = 256 * rxByte io (s.rp + 2) + rxByte io (s.rp + 3)) :
    cdns_mhdp_mailbox_validate_receive io s module_id opcode req_size =
      (0, ⟨s.rp + 4, s.wp, s.sent⟩) := by
  unfold cdns_mhdp_mailbox_validate_receive
  rw [readBytes_ok io 4 s hr, rxList_four]
  simp only [List.getElem!_cons_zero, List.getElem!_cons_succ]
  rw [if_neg]
  push_neg
  exact ⟨h0, h1, h2⟩

theorem validate_receive_mismatch (io : MboxIO) (s : MState)
    (module_id opcode req_size : Nat)
    (hr : ∀ j < 4 + (256 * rxByte io (s.rp + 2) + rxByte io (s.rp + 3)),
      (io.rx (s.rp + j)).isSome)
    (hne : ¬(opcode % 256 = rxByte io s.rp ∧
      module_id % 256 = rxByte io (s.rp + 1) ∧
      req_size % 65536 = 256 * rxByte io (s.rp + 2) + rxByte io (s.rp + 3))) :
    cdns_mhdp_mailbox_validate_receive io s module_id opcode req_size =
      (-EINVAL, ⟨s.rp + 4 + (256 * rxByte io (s.rp + 2) + rxByte io (s.rp + 3)),
        s.wp, s.sent⟩) := by
  unfold cdns_mhdp_mailbox_validate_receive
  rw [readBytes_ok io 4 s (fun j hj => hr j (by omega)), rxList_four]
  simp only [List.getElem!_cons_zero, List.getElem!_cons_succ]
  rw [if_pos (by tauto)]
  rw [drainBytes_all io _ _ (fun j hj => by
    have := hr (4 + j) (by omega)
    simpa [Nat.add_assoc] using this)]

/-- Claim C1: for every (module_id, opcode, expected_length),
`cdns_mhdp_mailbox_validate_receive` reads exactly the 4 header bytes;
when the header's opcode, module id and big-endian length all match it
returns success with nothing consumed beyond the header (read pointer
advances by exactly 4), and when any field mismatches it additionally
drains exactly the header-declared payload length and reports
`-EINVAL` (InvalidResponse).  Stated for channels whose reads deliver
bytes (no read timeout), which the claim presupposes. -/
theorem C1_validate_receive_spec (io : MboxIO) (s : MState)
    (module_id opcode req_size : Nat)
    (hr : ∀ j < 4 + (256 * rxByte io (s.rp + 2) + rxByte io (s.rp + 3)),
      (io.rx (s.rp + j)).isSome) :
    ((opcode % 256 = rxByte io s.rp ∧
      module_id % 256 = rxByte io (s.rp + 1) ∧
      req_size % 65536 = 256 * rxByte io (s.rp + 2) + rxByte io (s.rp + 3)) →
      cdns_mhdp_mailbox_validate_receive io s module_id opcode req_size =
        (0, ⟨s.rp + 4, s.wp, s.sent⟩)) ∧
    (¬(opcode % 256 = rxByte io s.rp ∧
      module_id % 256 = rxByte io (s.rp + 1) ∧
      req_size % 65536 = 256 * rxByte io (s.rp + 2) + rxByte io (s.rp + 3)) →
      cdns_mhdp_mailbox_validate_receive io s module_id opcode req_size =
        (-EINVAL, ⟨s.rp + 4 + (256 * rxByte io (s.rp + 2) +
          rxByte io (s.rp + 3)), s.wp, s.sent⟩)) := by
  constructor
  · intro h
    exact validate_receive_match io s module_id opcode req_size
      (fun j hj => hr j (by omega)) h.1 h.2.1 h.2.2
  · intro h
    exact validate_receive_mismatch io s module_id opcode req_size hr h

/-- Witness for C1: a response frame whose opcode byte is `0x55` instead
of the expected event-read opcode is drained (its 2 declared payload
bytes read) and rejected with `-EINVAL`. -/
theorem C1_validate_receive_spec_witness :
    cdns_mhdp_mailbox_validate_receive ioValidateMismatch s0
      MB_MODULE_ID_DP_TX DPTX_READ_EVENT 2 = (-EINVAL, ⟨6, 0, []⟩) := by
  have h := (C1_validate_receive_spec ioValidateMismatch s0
    MB_MODULE_ID_DP_TX DPTX_READ_EVENT 2 (by decide)).2 (by decide)
  exact h.trans (by decide)

/-- Claim C6: for every (module_id, opcode, payload),
`cdns_mhdp_mailbox_send` writes exactly the 4 header bytes
`[opcode, module_id, length high, length low]` (length big-endian)
followed by the payload bytes in order, each gated on the full-flag
poll; the first byte-write failure aborts immediately with the poll's
error, leaving exactly the already-written prefix in the channel
(nothing rewritten or rolled back). -/
theorem C6_mailbox_send_spec (io : MboxIO) (s : MState)
    (module_id opcode : Nat) (payload : List Nat)
    (hm : module_id < 256) (ho : opcode < 256)
    (hl : payload.length < 65536) (hb : ∀ b ∈ payload, b < 256) :
    ((∀ i < 4 + payload.length, io.wr (s.wp + i) = true) →
      cdns_mhdp_mailbox_send io s module_id opcode payload =
        (0, ⟨s.rp, s.wp + (4 + payload.length),
          s.sent ++ [opcode, module_id, payload.length / 256,
            payload.length % 256] ++ payload⟩)) ∧
    (∀ k < 4 + payload.length, io.wr (s.wp + k) = false →
      (∀ i < k, io.wr (s.wp + i) = true) →
      cdns_mhdp_mailbox_send io s module_id opcode payload =
        (-ETIMEDOUT, ⟨s.rp, s.wp + k + 1,
          s.sent ++ ([opcode, module_id, payload.length / 256,
            payload.length % 256] ++ payload).take k⟩)) := by
  have hhdr : mboxHeader module_id opcode payload.length =
      [opcode, module_id, payload.length / 256, payload.length % 256] := by
    simp [mboxHeader, Nat.mod_eq_of_lt ho, Nat.mod_eq_of_lt hm,
      Nat.mod_eq_of_lt (show payload.length / 256 < 256 by omega)]
  have hall : ∀ b ∈ mboxHeader module_id opcode payload.length ++ payload,
      b < 256 := by
    intro b hbm
    rw [hhdr] at hbm
    simp only [List.mem_append, List.mem_cons, List.not_mem_nil, or_false]
      at hbm
    rcases hbm with (h | h | h | h) | h
    · omega
    · omega
    · omega
    · omega
    · exact hb b h
  constructor
  · intro hw
    rw [mailbox_send_ok io s module_id opcode payload hw]
    rw [map_mod256_eq _ hall, hhdr]
    simp [List.append_assoc]
  · intro k hk hkf hkpre
    unfold cdns_mhdp_mailbox_send
    rw [writeBytes_fail io _ s k (by simp [mboxHeader]; omega) hkf hkpre]
    rw [map_mod256_eq _ (fun b hbm => hall b (List.take_subset k _ hbm)),
      hhdr]

/-- Witness for C6: on a channel accepting exactly six writes, sending a
2-byte payload with opcode 7 and module id 3 puts the big-endian header
`[7, 3, 0, 2]` followed by the payload on the wire and succeeds. -/
theorem C6_mailbox_send_spec_witness :
    cdns_mhdp_mailbox_send ioSendSix s0 3 7 [171, 205] =
      (0, ⟨0, 6, [7, 3, 0, 2, 171, 205]⟩) := by
  have h := (C6_mailbox_send_spec ioSendSix s0 3 7 [171, 205]
    (by decide) (by decide) (by decide) (by decide)).1 (by decide)
  exact h.trans (by decide)

/-- Claim C7: `cdns_mhdp_set_firmware_active` writes exactly the 5 bytes
`[opcode, module_id, 0, 1, active/standby]` directly through the
byte-write primitive and then reads exactly 5 acknowledgment bytes back
with the byte-read primitive, with no header validation (the
acknowledgment's contents are irrelevant): it succeeds whenever all 10
byte operations succeed, and otherwise propagates the first byte-level
failure (aborting after the failed write, resp. failed read). -/
theorem C7_set_firmware_active_spec (io : MboxIO) (s : MState)
    (enable : Bool) :
    ((∀ i < 5, io.wr (s.wp + i) = true) →
      (∀ j < 5, (io.rx (s.rp + j)).isSome) →
      cdns_mhdp_set_firmware_active io s enable =
        (0, ⟨s.rp + 5, s.wp + 5,
          s.sent ++ [GENERAL_MAIN_CONTROL, MB_MODULE_ID_GENERAL, 0, 1,
            if enable then FW_ACTIVE else FW_STANDBY]⟩)) ∧
    (∀ k < 5, io.wr (s.wp + k) = false →
      (∀ i < k, io.wr (s.wp + i) = true) →
      cdns_mhdp_set_firmware_active io s enable =
        (-ETIMEDOUT, ⟨s.rp, s.wp + k + 1,
          s.sent ++ ([GENERAL_MAIN_CONTROL, MB_MODULE_ID_GENERAL, 0, 1,
            if enable then FW_ACTIVE else FW_STANDBY].take k)⟩)) ∧
    ((∀ i < 5, io.wr (s.wp + i) = true) →
      ∀ k < 5, io.rx (s.rp + k) = none →
      (∀ j < k, (io.rx (s.rp + j)).isSome) →
      cdns_mhdp_set_firmware_active io s enable =
        (-ETIMEDOUT, ⟨s.rp + k + 1, s.wp + 5,
          s.sent ++ [GENERAL_MAIN_CONTROL, MB_MODULE_ID_GENERAL, 0, 1,
            if enable then FW_ACTIVE else FW_STANDBY]⟩)) := by
  have hall : ∀ b ∈ [GENERAL_MAIN_CONTROL, MB_MODULE_ID_GENERAL, 0, 1,
      if enable then FW_ACTIVE else FW_STANDBY], b < 256 := by
    cases enable <;> decide
  have hwB : ∀ _ : (∀ i < 5, io.wr (s.wp + i) = true),
      writeBytes io s [GENERAL_MAIN_CONTROL, MB_MODULE_ID_GENERAL, 0, 1,
        if enable then FW_ACTIVE else FW_STANDBY] =
      (0, ⟨s.rp, s.wp + 5, s.sent ++ [GENERAL_MAIN_CONTROL,
        MB_MODULE_ID_GENERAL, 0, 1,
        if enable then FW_ACTIVE else FW_STANDBY]⟩) := fun hw =>
    (writeBytes_ok io _ s (by simpa using hw)).trans (by
      rw [map_mod256_eq _ hall]; norm_num)
  refine ⟨?_, ?_, ?_⟩
  · intro hw hr
    simp only [cdns_mhdp_set_firmware_active]
    rw [hwB hw]
    dsimp only
    rw [if_neg (by simp)]
    rw [readBytes_ok io 5 ⟨s.rp, s.wp + 5, s.sent ++ [GENERAL_MAIN_CONTROL,
      MB_MODULE_ID_GENERAL, 0, 1, if enable then FW_ACTIVE else FW_STANDBY]⟩
      (by simpa using hr)]
  · intro k hk hkf hkpre
    simp only [cdns_mhdp_set_firmware_active]
    rw [writeBytes_fail io _ s k (by simpa using hk) hkf hkpre]
    rw [map_mod256_eq _ (fun b hbm => hall b (List.take_subset k _ hbm))]
    rw [if_pos (by simp [ETIMEDOUT])]
  · intro hw k hk hkf hkpre
    simp only [cdns_mhdp_set_firmware_active]
    rw [hwB hw]
    dsimp only
    rw [if_neg (by simp)]
    rw [readBytes_fail io 5 ⟨s.rp, s.wp + 5, s.sent ++ [GENERAL_MAIN_CONTROL,
      MB_MODULE_ID_GENERAL, 0, 1, if enable then FW_ACTIVE else FW_STANDBY]⟩
      k hk (by simpa using hkf) (by simpa using hkpre)]

/-- Witness for C7: on a fully permissive channel, enabling the firmware
writes `[1, 10, 0, 1, 1]`, consumes the 5 acknowledgment bytes and
succeeds. -/
theorem C7_set_firmware_active_spec_witness :
    cdns_mhdp_set_firmware_active ioAck s0 true = (0, ⟨5, 5, [1, 10, 0, 1, 1]⟩) := by
  have h := (C7_set_firmware_active_spec ioAck s0 true).1 (by decide) (by decide)
  exact h.trans (by decide)

theorem rxList_length (io : MboxIO) : ∀ (n p : Nat), (rxList io p n).length = n := by
  intro n
  induction n with
  | zero => intro p; rfl
  | succ n ih => intro p; simp [rxList, ih]

theorem rxList_add (io : MboxIO) :
    ∀ (m n p : Nat), rxList io p (m + n) = rxList io p m ++ rxList io (p + m) n := by
  intro m
  induction m with
  | zero => intro n p; simp [rxList]
  | succ m ih =>
    intro n p
    have h1 : m + 1 + n = (m + n) + 1 := by omega
    rw [h1]
    show rxByte io p :: rxList io (p + 1) (m + n) = _
    rw [ih n (p + 1)]
    simp [rxList, Nat.add_assoc, Nat.add_comm 1 m]

theorem rxList_take (io : MboxIO) (p m n : Nat) :
    (rxList io p (m + n)).take m = rxList io p m := by
  rw [rxList_add io m n p]
  exact List.take_left' (rxList_length io m p)

theorem rxList_drop (io : MboxIO) (p m n : Nat) :
    (rxList io p (m + n)).drop m = rxList io (p + m) n := by
  rw [rxList_add io m n p]
  exact List.drop_left' (rxList_length io m p)

/-- Claim C5: `cdns_mhdp_reg_read` fails with `-EINVAL` (InvalidArgument)
for address 0 without touching the mailbox (the channel state is returned
unchanged: nothing sent, nothing read); for every nonzero 32-bit address,
once the transport-level validation has passed it additionally compares
the 4 echoed address bytes of the response with the request and treats a
mismatch as failure (`-EINVAL`), returning the decoded 32-bit value only
when the echoed address equals the request. -/
theorem C5_reg_read_spec (io : MboxIO) (s : MState) (addr : Nat) :
    (cdns_mhdp_reg_read io s 0 = (-EINVAL, s)) ∧
    (0 < addr → addr < 2 ^ 32 →
      (∀ i < 12, io.wr (s.wp + i) = true) →
      (∀ j < 12, (io.rx (s.rp + j)).isSome) →
      rxByte io s.rp = GENERAL_READ_REGISTER →
      rxByte io (s.rp + 1) = MB_MODULE_ID_GENERAL →
      rxByte io (s.rp + 2) = 0 →
      rxByte io (s.rp + 3) = 8 →
      cdns_mhdp_reg_read io s addr =
        (if rxList io (s.rp + 4) 4 = be32Bytes addr
         then (toSigned32 (be32Of (rxList io (s.rp + 8) 4)),
           ⟨s.rp + 12, s.wp + 8, s.sent ++ mboxHeader MB_MODULE_ID_GENERAL
             GENERAL_READ_REGISTER 4 ++ be32Bytes addr⟩)
         else (-EINVAL, ⟨s.rp + 12, s.wp + 8, s.sent ++ mboxHeader
           MB_MODULE_ID_GENERAL GENERAL_READ_REGISTER 4 ++ be32Bytes addr⟩))) := by
  constructor
  · simp [cdns_mhdp_reg_read]
  · intro hpos hlt hw hr h0 h1 h2 h3
    have hallM : ∀ b ∈ mboxHeader MB_MODULE_ID_GENERAL GENERAL_READ_REGISTER 4
        ++ be32Bytes addr, b < 256 := by
      intro b hbm
      simp only [mboxHeader, be32Bytes, List.mem_append, List.mem_cons,
        List.not_mem_nil, or_false] at hbm
      rcases hbm with (h | h | h | h) | (h | h | h | h) <;> omega
    have hsend : cdns_mhdp_mailbox_send io s MB_MODULE_ID_GENERAL
        GENERAL_READ_REGISTER (be32Bytes addr) =
        (0, ⟨s.rp, s.wp + 8, s.sent ++ mboxHeader MB_MODULE_ID_GENERAL
          GENERAL_READ_REGISTER 4 ++ be32Bytes addr⟩) := by
      refine (mailbox_send_ok io s MB_MODULE_ID_GENERAL GENERAL_READ_REGISTER
        (be32Bytes addr) (fun i hi => hw i (by simp [be32Bytes] at hi; omega))).trans ?_
      rw [show (be32Bytes addr).length = 4 by simp [be32Bytes]]
      rw [map_mod256_eq _ hallM]
      simp [List.append_assoc]
    have hval : cdns_mhdp_mailbox_validate_receive io
        ⟨s.rp, s.wp + 8, s.sent ++ mboxHeader MB_MODULE_ID_GENERAL
          GENERAL_READ_REGISTER 4 ++ be32Bytes addr⟩
        MB_MODULE_ID_GENERAL GENERAL_READ_REGISTER 8 =
        (0, ⟨s.rp + 4, s.wp + 8, s.sent ++ mboxHeader MB_MODULE_ID_GENERAL
          GENERAL_READ_REGISTER 4 ++ be32Bytes addr⟩) := by
      refine validate_receive_match io _ _ _ _
        (fun j hj => by
          have := hr j (by omega)
          simpa using this)
        ?_ ?_ ?_
      · show GENERAL_READ_REGISTER % 256 = rxByte io s.rp
        rw [h0]; decide
      · show MB_MODULE_ID_GENERAL % 256 = rxByte io (s.rp + 1)
        rw [h1]; decide
      · show 8 % 65536 = 256 * rxByte io (s.rp + 2) + rxByte io (s.rp + 3)
        rw [h2, h3]
    have hread : readBytes io
        ⟨s.rp + 4, s.wp + 8, s.sent ++ mboxHeader MB_MODULE_ID_GENERAL
          GENERAL_READ_REGISTER 4 ++ be32Bytes addr⟩ 8 =
        (.ok (rxList io (s.rp + 4) 8),
         ⟨s.rp + 12, s.wp + 8, s.sent ++ mboxHeader MB_MODULE_ID_GENERAL
           GENERAL_READ_REGISTER 4 ++ be32Bytes addr⟩) := by
      refine (readBytes_ok io 8 _ (fun j hj => by
        have := hr (4 + j) (by omega)
        simpa [Nat.add_assoc] using this)).trans ?_
      norm_num
    simp only [cdns_mhdp_reg_read]
    rw [Nat.mod_eq_of_lt hlt]
    rw [if_neg (by omega)]
    rw [hsend]
    dsimp only
    rw [if_neg (by simp)]
    rw [hval]
    dsimp only
    rw [if_neg (by simp)]
    simp only [cdns_mhdp_mailbox_read_receive]
    rw [hread]
    dsimp only
    have htake : (rxList io (s.rp + 4) 8).take 4 = rxList io (s.rp + 4) 4 :=
      rxList_take io (s.rp + 4) 4 4
    have hdrop : (rxList io (s.rp + 4) 8).drop 4 = rxList io (s.rp + 8) 4 := by
      have := rxList_drop io (s.rp + 4) 4 4
      rwa [show s.rp + 4 + 4 = s.rp + 8 by omega] at this
    rw [htake, hdrop]
    by_cases hc : rxList io (s.rp + 4) 4 = be32Bytes addr
    · rw [if_neg (by simpa using hc), if_pos hc]
    · rw [if_pos (by simpa using hc), if_neg hc]

/-- Witness for C5: on the channel `ioRegEcho`, reading register `0x100`
passes the echo check and returns the decoded value `0x12345678`. -/
theorem C5_reg_read_spec_witness :
    cdns_mhdp_reg_read ioRegEcho s0 256 =
      (0x12345678, ⟨12, 8, [7, 10, 0, 4, 0, 0, 1, 0]⟩) := by
  have h := (C5_reg_read_spec ioRegEcho s0 256).2 (by decide) (by decide)
    (by decide) (by decide) (by decide) (by decide) (by decide) (by decide)
  exact h.trans (by decide)

/-- Claim C9: a fully successful register-read exchange (transport
validation passed and the echoed address equals the request) can return a
negative value: with register value `0xffffffff` the driver's `int`
return is `-1`, indistinguishable from an error code at the caller. -/
theorem C9_reg_read_sign_overflow :
    cdns_mhdp_reg_read ioRegNeg s0 256 =
      (-1, ⟨12, 8, [7, 10, 0, 4, 0, 0, 1, 0]⟩) ∧
    rxList ioRegNeg 4 4 = be32Bytes 256 ∧
    (-1 : Int) < 0 := by
  refine ⟨by decide, by decide, by decide⟩

theorem rxList_five (io : MboxIO) (p : Nat) :
    rxList io p 5 = [rxByte io p, rxByte io (p + 1), rxByte io (p + 2),
      rxByte io (p + 3), rxByte io (p + 4)] := by
  simp [rxList, Nat.add_assoc]

/-- Claim C10: in `cdns_mhdp_adjust_lt`, when every transport step
succeeds but the 24-bit address echoed in the response header differs
from `DP_LANE0_1_STATUS`, the function returns 0 (success) while
skipping the final 6-byte read (the read pointer stops at the 9 bytes of
validation header plus echo header) and the caller's `dpcd` output
buffer stays unwritten (`none`). -/
theorem C10_adjust_lt_wrong_addr_success (io : MboxIO) (s : MState)
    (nlanes udelay : Nat) (lanes_data junk : List Nat)
    (hn : nlanes = 4 ∨ nlanes = 2 ∨ nlanes = 1)
    (hld : nlanes ≤ lanes_data.length)
    (hjk : junk.length = 4 - nlanes)
    (hw : ∀ i < 11, io.wr (s.wp + i) = true)
    (hr : ∀ j < 9, (io.rx (s.rp + j)).isSome)
    (h0 : rxByte io s.rp = DPTX_READ_DPCD)
    (h1 : rxByte io (s.rp + 1) = MB_MODULE_ID_DP_TX)
    (h2 : rxByte io (s.rp + 2) = 0)
    (h3 : rxByte io (s.rp + 3) = 11)
    (ha : 2 ^ 16 * rxByte io (s.rp + 6) + 2 ^ 8 * rxByte io (s.rp + 7) +
      rxByte io (s.rp + 8) ≠ DP_LANE0_1_STATUS) :
    (cdns_mhdp_adjust_lt io s nlanes udelay lanes_data junk).1 = 0 ∧
    (cdns_mhdp_adjust_lt io s nlanes udelay lanes_data junk).2.1.rp = s.rp + 9 ∧
    (cdns_mhdp_adjust_lt io s nlanes udelay lanes_data junk).2.1.wp = s.wp + 11 ∧
    (cdns_mhdp_adjust_lt io s nlanes udelay lanes_data junk).2.2 = none := by
  have hplen : ([nlanes % 256, udelay / 256 % 256, udelay % 256] ++
      (lanes_data.map (· % 256)).take nlanes ++
      junk.take (4 - nlanes)).length = 7 := by
    simp only [List.length_append, List.length_cons, List.length_nil,
      List.length_take, List.length_map, hjk]
    omega
  have hsend : cdns_mhdp_mailbox_send io s MB_MODULE_ID_DP_TX DPTX_ADJUST_LT
      ([nlanes % 256, udelay / 256 % 256, udelay % 256] ++
        (lanes_data.map (· % 256)).take nlanes ++ junk.take (4 - nlanes)) =
      (0, ⟨s.rp, s.wp + 11, s.sent ++
        (mboxHeader MB_MODULE_ID_DP_TX DPTX_ADJUST_LT 7 ++
          ([nlanes % 256, udelay / 256 % 256, udelay % 256] ++
            (lanes_data.map (· % 256)).take nlanes ++
            junk.take (4 - nlanes))).map (· % 256)⟩) := by
    refine (mailbox_send_ok io s MB_MODULE_ID_DP_TX DPTX_ADJUST_LT _
      (fun i hi => hw i (by rw [hplen] at hi; omega))).trans ?_
    rw [hplen]
  have hval : cdns_mhdp_mailbox_validate_receive io
      ⟨s.rp, s.wp + 11, s.sent ++
        (mboxHeader MB_MODULE_ID_DP_TX DPTX_ADJUST_LT 7 ++
          ([nlanes % 256, udelay / 256 % 256, udelay % 256] ++
            (lanes_data.map (· % 256)).take nlanes ++
            junk.take (4 - nlanes))).map (· % 256)⟩
      MB_MODULE_ID_DP_TX DPTX_READ_DPCD (5 + 6) =
      (0, ⟨s.rp + 4, s.wp + 11, s.sent ++
        (mboxHeader MB_MODULE_ID_DP_TX DPTX_ADJUST_LT 7 ++
          ([nlanes % 256, udelay / 256 % 256, udelay % 256] ++
            (lanes_data.map (· % 256)).take nlanes ++
            junk.take (4 - nlanes))).map (· % 256)⟩) := by
    refine validate_receive_match io _ _ _ _
      (fun j hj => by
        have := hr j (by omega)
        simpa using this) ?_ ?_ ?_
    · show DPTX_READ_DPCD % 256 = rxByte io s.rp
      rw [h0]; decide
    · show MB_MODULE_ID_DP_TX % 256 = rxByte io (s.rp + 1)
      rw [h1]; decide
    · show (5 + 6) % 65536 = 256 * rxByte io (s.rp + 2) + rxByte io (s.rp + 3)
      rw [h2, h3]
  have hread : readBytes io
      ⟨s.rp + 4, s.wp + 11, s.sent ++
        (mboxHeader MB_MODULE_ID_DP_TX DPTX_ADJUST_LT 7 ++
          ([nlanes % 256, udelay / 256 % 256, udelay % 256] ++
            (lanes_data.map (· % 256)).take nlanes ++
            junk.take (4 - nlanes))).map (· % 256)⟩ 5 =
      (.ok (rxList io (s.rp + 4) 5),
       ⟨s.rp + 9, s.wp + 11, s.sent ++
        (mboxHeader MB_MODULE_ID_DP_TX DPTX_ADJUST_LT 7 ++
          ([nlanes % 256, udelay / 256 % 256, udelay % 256] ++
            (lanes_data.map (· % 256)).take nlanes ++
            junk.take (4 - nlanes))).map (· % 256)⟩) := by
    refine (readBytes_ok io 5 _ (fun j hj => by
      have := hr (4 + j) (by omega)
      simpa [Nat.add_assoc] using this)).trans ?_
    norm_num
  simp only [cdns_mhdp_adjust_lt]
  rw [if_neg (not_not_intro hn)]
  rw [hsend]
  dsimp only
  rw [if_neg (by simp)]
  rw [hval]
  dsimp only
  rw [if_neg (by simp)]
  simp only [cdns_mhdp_mailbox_read_receive]
  rw [hread]
  dsimp only
  rw [rxList_five]
  simp only [List.getElem!_cons_zero, List.getElem!_cons_succ]
  rw [if_pos (by
    have : s.rp + 4 + 2 = s.rp + 6 := by omega
    rw [this]
    have : s.rp + 4 + 3 = s.rp + 7 := by omega
    rw [this]
    have : s.rp + 4 + 4 = s.rp + 8 := by omega
    rw [this]
    exact ha)]
  exact ⟨rfl, rfl, rfl, rfl⟩

/-- Witness for C10: on the channel `ioAdjustWrongAddr` (echoed address
0), adjusting link training with 4 lanes succeeds with return 0, read
pointer 9, write pointer 11 and an untouched `dpcd` buffer. -/
theorem C10_adjust_lt_wrong_addr_success_witness :
    (cdns_mhdp_adjust_lt ioAdjustWrongAddr s0 4 0 [0, 0, 0, 0] []).1 = 0 ∧
    (cdns_mhdp_adjust_lt ioAdjustWrongAddr s0 4 0 [0, 0, 0, 0] []).2.1.rp = 9 ∧
    (cdns_mhdp_adjust_lt ioAdjustWrongAddr s0 4 0 [0, 0, 0, 0] []).2.1.wp = 11 ∧
    (cdns_mhdp_adjust_lt ioAdjustWrongAddr s0 4 0 [0, 0, 0, 0] []).2.2 = none := by
  exact C10_adjust_lt_wrong_addr_success ioAdjustWrongAddr s0 4 0 [0, 0, 0, 0] []
    (by decide) (by decide) (by decide) (by decide) (by decide) (by decide)
    (by decide) (by decide) (by decide) (by decide)

/-- Claim C8: in `ls_pcie_g4_read_other_conf`, when the revision is 1.0
and the read targets the vendor-ID register, the read-response-reordering
enable bit is written 0 before the generic config read and written 1
after it; for every other (revision, register) combination the
reordering register is not written at all and the result is exactly the
plain generic config read's. -/
theorem C8_read_other_conf_vendor_id_workaround (rev whereReg : Nat)
    (ret : Int) (val : Nat) :
    ((rev = REV_1_0 ∧ whereReg = PCI_VENDOR_ID) →
      ls_pcie_g4_read_other_conf rev whereReg ret val =
        ([PcieEv.lutWrite PCIE_LUT_GCR 0, PcieEv.cfgRead whereReg,
          PcieEv.lutWrite PCIE_LUT_GCR 1], ret, val)) ∧
    (¬(rev = REV_1_0 ∧ whereReg = PCI_VENDOR_ID) →
      ls_pcie_g4_read_other_conf rev whereReg ret val =
        ([PcieEv.cfgRead whereReg], ret, val) ∧
      ∀ off v, PcieEv.lutWrite off v ∉
        (ls_pcie_g4_read_other_conf rev whereReg ret val).1) := by
  constructor
  · intro h
    simp [ls_pcie_g4_read_other_conf, h, PCIE_LUT_GCR_RRE,
      Nat.shiftLeft_zero]
  · intro h
    constructor
    · simp [ls_pcie_g4_read_other_conf, h]
    · intro off v
      simp [ls_pcie_g4_read_other_conf, h]

/-- Witness for C8: on revision `0x10`, a vendor-ID read produces the
clear-read-set trace around the untouched generic result. -/
theorem C8_read_other_conf_vendor_id_workaround_witness :
    ls_pcie_g4_read_other_conf 0x10 0 0 0x2910 =
      ([PcieEv.lutWrite PCIE_LUT_GCR 0, PcieEv.cfgRead 0,
        PcieEv.lutWrite PCIE_LUT_GCR 1], 0, 0x2910) :=
  (C8_read_other_conf_vendor_id_workaround 0x10 0 0 0x2910).1 (by decide)

theorem edidTry_matched (io : MboxIO) (s : MState) (block length : Nat) :
    (edidTry io s block length).2.2 = true →
    (edidTry io s block length).1 = 0 := by
  simp only [edidTry]
  rcases hr1 : cdns_mhdp_mailbox_send io s MB_MODULE_ID_DP_TX DPTX_GET_EDID
    [block / 2 % 256, block % 2] with ⟨a1, s1⟩
  dsimp only
  by_cases h1 : a1 ≠ 0
  · rw [if_pos h1]
    intro h
    exact absurd h (by simp)
  · rw [if_neg h1]
    rcases hr2 : cdns_mhdp_mailbox_validate_receive io s1 MB_MODULE_ID_DP_TX
      DPTX_GET_EDID (2 + length) with ⟨a2, s2⟩
    dsimp only
    by_cases h2 : a2 ≠ 0
    · rw [if_pos h2]
      intro h
      exact absurd h (by simp)
    · rw [if_neg h2]
      rcases hr3 : cdns_mhdp_mailbox_read_receive io s2 2 with ⟨res3, s3⟩
      cases res3 with
      | error e =>
        dsimp only
        intro h
        exact absurd h (by simp)
      | ok reg =>
        dsimp only
        rcases hr4 : cdns_mhdp_mailbox_read_receive io s3 length with ⟨res4, s4⟩
        cases res4 with
        | error e =>
          dsimp only
          intro h
          exact absurd h (by simp)
        | ok d =>
          dsimp only
          intro _
          rfl

theorem edidIter_succ (io : MboxIO) (block length : Nat) :
    ∀ (k : Nat) (s : MState),
    edidIter io block length (k + 1) s =
      (edidTry io (edidIter io block length k s) block length).2.1 := by
  intro k
  induction k with
  | zero => intro s; rfl
  | succ k ih =>
    intro s
    show edidIter io block length (k + 1) (edidTry io s block length).2.1 = _
    rw [ih (edidTry io s block length).2.1]
    rfl

theorem edidLoop_all_miss (io : MboxIO) (block length : Nat) :
    ∀ (n : Nat) (s : MState) (last : Int),
    (∀ k < n + 1,
      (edidTry io (edidIter io block length k s) block length).2.2 = false) →
    edidLoop io block length (n + 1) s last =
      ((edidTry io (edidIter io block length n s) block length).1,
       edidIter io block length (n + 1) s) := by
  intro n
  induction n with
  | zero =>
    intro s last h
    have h0 := h 0 (by omega)
    simp only [edidIter] at h0
    simp only [edidLoop, edidIter]
    rw [if_neg (by simp [h0])]
  | succ n ih =>
    intro s last h
    have h0 := h 0 (by omega)
    simp only [edidIter] at h0
    show (let r := edidTry io s block length
      if r.2.2 then (r.1, r.2.1)
      else edidLoop io block length (n + 1) r.2.1 r.1) = _
    rw [if_neg (by simp [h0])]
    rw [ih (edidTry io s block length).2.1 (edidTry io s block length).1
      (fun k hk => by
        have := h (k + 1) (by omega)
        simpa [edidIter] using this)]
    rfl

theorem edidLoop_hit (io : MboxIO) (block length : Nat) :
    ∀ (n k : Nat) (s : MState) (last : Int), k < n →
    (edidTry io (edidIter io block length k s) block length).2.2 = true →
    (∀ j < k,
      (edidTry io (edidIter io block length j s) block length).2.2 = false) →
    edidLoop io block length n s last =
      ((edidTry io (edidIter io block length k s) block length).1,
       (edidTry io (edidIter io block length k s) block length).2.1) := by
  intro n
  induction n with
  | zero =>
    intro k s last hk _ _
    exact absurd hk (Nat.not_lt_zero k)
  | succ n ih =>
    intro k s last hk hhit hmiss
    match k with
    | 0 =>
      simp only [edidIter] at hhit
      simp only [edidLoop, edidIter]
      rw [if_pos (by simp [hhit])]
    | k + 1 =>
      have h0 := hmiss 0 (by omega)
      simp only [edidIter] at h0
      show (let r := edidTry io s block length
        if r.2.2 then (r.1, r.2.1)
        else edidLoop io block length n r.2.1 r.1) = _
      rw [if_neg (by simp [h0])]
      rw [ih k (edidTry io s block length).2.1 (edidTry io s block length).1
        (by omega)
        (by simpa [edidIter] using hhit)
        (fun j hj => by
          have := hmiss (j + 1) (by omega)
          simpa [edidIter] using this)]
      rfl

/-- Counterexample for C3: on the channel `ioEdidAllMismatch` every one
of the 4 attempts of `cdns_mhdp_get_edid_block` completes its transport
cleanly but echoes the wrong half-block index, yet the function returns
0 (success) — not "the error of the last attempt" as the claim states
(there is no error to return, and the mismatch itself is not turned into
one). -/
theorem C3_get_edid_block_exhausted_returns_success :
    (∀ k < 4, (edidTry ioEdidAllMismatch
      (edidIter ioEdidAllMismatch 0 1 k s0) 0 1).2.2 = false) ∧
    (cdns_mhdp_get_edid_block ioEdidAllMismatch s0 0 1).1 = 0 := by
  refine ⟨by decide, by decide⟩

/-- Claim C3 (amended): for every block and length,
`cdns_mhdp_get_edid_block` retries the whole send/validate/read cycle up
to 4 times, continuing past each failed or mismatching attempt rather
than aborting; the first attempt whose transport succeeds with a
matching echoed half-block index and length ends the loop with success
(0), and if all 4 attempts are exhausted the function returns the status
of the last attempt — the last layer error if that attempt failed in a
layer, or 0 (success) if its transport succeeded and only the echo
mismatched. -/
theorem C3_get_edid_block_retry_spec (io : MboxIO) (s : MState)
    (block length : Nat) :
    ((∀ k < 4,
      (edidTry io (edidIter io block length k s) block length).2.2 = false) →
      cdns_mhdp_get_edid_block io s block length =
        ((edidTry io (edidIter io block length 3 s) block length).1,
         edidIter io block length 4 s)) ∧
    (∀ k < 4,
      (edidTry io (edidIter io block length k s) block length).2.2 = true →
      (∀ j < k,
        (edidTry io (edidIter io block length j s) block length).2.2 = false) →
      cdns_mhdp_get_edid_block io s block length =
        (0, edidIter io block length (k + 1) s)) := by
  constructor
  · intro h
    exact edidLoop_all_miss io block length 3 s 0 h
  · intro k hk hhit hmiss
    have hres := edidLoop_hit io block length 4 k s 0 hk hhit hmiss
    have hz := edidTry_matched io (edidIter io block length k s) block length hhit
    show edidLoop io block length 4 s 0 = _
    rw [hres, hz, edidIter_succ io block length k s]

/-- Witness for C3 (amended): the first attempt dies at the send layer
(first byte write times out), the second attempt gets a matching
response, and the fetch succeeds with the request bytes of the second
attempt on the wire. -/
theorem C3_get_edid_block_retry_spec_witness :
    cdns_mhdp_get_edid_block ioEdidRetry s0 0 1 = (0, ⟨7, 7, [2, 1, 0, 2, 0, 0]⟩) := by
  have h := (C3_get_edid_block_retry_spec ioEdidRetry s0 0 1).2 1
    (by decide) (by decide) (by decide)
  exact h.trans (by decide)

theorem rxList_two (io : MboxIO) (p : Nat) :
    rxList io p 2 = [rxByte io p, rxByte io (p + 1)] := by
  simp [rxList]

theorem trainingPoll_timeout (io : MboxIO) :
    ∀ (N : Nat) (s : MState),
    (∀ i < 4 * N, io.wr (s.wp + i) = true) →
    (∀ j < 6 * N, (io.rx (s.rp + j)).isSome) →
    (∀ k < N, rxByte io (s.rp + 6 * k) = DPTX_READ_EVENT ∧
      rxByte io (s.rp + 6 * k + 1) = MB_MODULE_ID_DP_TX ∧
      rxByte io (s.rp + 6 * k + 2) = 0 ∧
      rxByte io (s.rp + 6 * k + 3) = 2 ∧
      rxByte io (s.rp + 6 * k + 5) &&& EQ_PHASE_FINISHED = 0) →
    (trainingPoll io N s).1 = -ETIMEDOUT := by
  intro N
  induction N with
  | zero => intro s _ _ _; rfl
  | succ N ih =>
    intro s hw hr hh
    have h0 := hh 0 (by omega)
    simp only [Nat.mul_zero, Nat.add_zero] at h0
    obtain ⟨e0, e1, e2, e3, e5⟩ := h0
    have hsend : cdns_mhdp_mailbox_send io s MB_MODULE_ID_DP_TX
        DPTX_READ_EVENT [] =
        (0, ⟨s.rp, s.wp + 4, s.sent ++ [10, 1, 0, 0]⟩) := by
      refine (mailbox_send_ok io s MB_MODULE_ID_DP_TX DPTX_READ_EVENT []
        (fun i hi => hw i (by simp at hi; omega))).trans ?_
      norm_num [mboxHeader, MB_MODULE_ID_DP_TX, DPTX_READ_EVENT]
    have hval : cdns_mhdp_mailbox_validate_receive io
        ⟨s.rp, s.wp + 4, s.sent ++ [10, 1, 0, 0]⟩
        MB_MODULE_ID_DP_TX DPTX_READ_EVENT 2 =
        (0, ⟨s.rp + 4, s.wp + 4, s.sent ++ [10, 1, 0, 0]⟩) := by
      refine validate_receive_match io _ _ _ _
        (fun j hj => by
          have := hr j (by omega)
          simpa using this) ?_ ?_ ?_
      · show DPTX_READ_EVENT % 256 = rxByte io s.rp
        rw [e0]; decide
      · show MB_MODULE_ID_DP_TX % 256 = rxByte io (s.rp + 1)
        rw [e1]; decide
      · show 2 % 65536 = 256 * rxByte io (s.rp + 2) + rxByte io (s.rp + 3)
        rw [e2, e3]
    have hread : readBytes io ⟨s.rp + 4, s.wp + 4, s.sent ++ [10, 1, 0, 0]⟩ 2 =
        (.ok (rxList io (s.rp + 4) 2),
         ⟨s.rp + 6, s.wp + 4, s.sent ++ [10, 1, 0, 0]⟩) := by
      refine (readBytes_ok io 2 _ (fun j hj => by
        have := hr (4 + j) (by omega)
        simpa [Nat.add_assoc] using this)).trans ?_
      norm_num
    simp only [trainingPoll]
    rw [hsend]
    dsimp only
    rw [if_neg (by simp)]
    rw [hval]
    dsimp only
    rw [if_neg (by simp)]
    simp only [cdns_mhdp_mailbox_read_receive]
    rw [hread]
    dsimp only
    rw [rxList_two]
    simp only [List.getElem!_cons_zero, List.getElem!_cons_succ]
    rw [if_neg (by
      rw [show s.rp + 4 + 1 = s.rp + 5 by omega]
      simp [e5])]
    refine ih ⟨s.rp + 6, s.wp + 4, s.sent ++ [10, 1, 0, 0]⟩
      (fun i hi => by
        have := hw (4 + i) (by omega)
        simpa [Nat.add_assoc] using this)
      (fun j hj => by
        have := hr (6 + j) (by omega)
        simpa [Nat.add_assoc] using this)
      (fun k hk => by
        obtain ⟨a, b, c, d, e⟩ := hh (k + 1) (by omega)
        refine ⟨?_, ?_, ?_, ?_, ?_⟩
        · show rxByte io (s.rp + 6 + 6 * k) = _
          rw [show s.rp + 6 + 6 * k = s.rp + 6 * (k + 1) by omega]
          exact a
        · show rxByte io (s.rp + 6 + 6 * k + 1) = _
          rw [show s.rp + 6 + 6 * k + 1 = s.rp + 6 * (k + 1) + 1 by omega]
          exact b
        · show rxByte io (s.rp + 6 + 6 * k + 2) = _
          rw [show s.rp + 6 + 6 * k + 2 = s.rp + 6 * (k + 1) + 2 by omega]
          exact c
        · show rxByte io (s.rp + 6 + 6 * k + 3) = _
          rw [show s.rp + 6 + 6 * k + 3 = s.rp + 6 * (k + 1) + 3 by omega]
          exact d
        · show rxByte io (s.rp + 6 + 6 * k + 5) &&& EQ_PHASE_FINISHED = 0
          rw [show s.rp + 6 + 6 * k + 5 = s.rp + 6 * (k + 1) + 5 by omega]
          exact e)

/-- Claim C4: in `cdns_mhdp_train_link`, if the event-polling loop of
`cdns_mhdp_training_start` never observes the equalization-finished flag
within its time budget (every polled event has the flag clear, for every
round the ~500 ms deadline allows), the whole operation fails with
`-ETIMEDOUT`, the detailed link-status read is never attempted (the
final channel state is exactly `cdns_mhdp_training_start`'s, with no
further mailbox traffic), and the link-state fields rate and num_lanes
are not updated. -/
theorem C4_train_link_timeout_spec (io : MboxIO) (s : MState) (link : Link)
    (N : Nat)
    (hw : ∀ i < 5 + 4 * N, io.wr (s.wp + i) = true)
    (hr : ∀ j < 6 * N, (io.rx (s.rp + j)).isSome)
    (hh : ∀ k < N, rxByte io (s.rp + 6 * k) = DPTX_READ_EVENT ∧
      rxByte io (s.rp + 6 * k + 1) = MB_MODULE_ID_DP_TX ∧
      rxByte io (s.rp + 6 * k + 2) = 0 ∧
      rxByte io (s.rp + 6 * k + 3) = 2 ∧
      rxByte io (s.rp + 6 * k + 5) &&& EQ_PHASE_FINISHED = 0) :
    cdns_mhdp_train_link io s link N =
      (-ETIMEDOUT, (cdns_mhdp_training_start io s N).2, link) := by
  have hsend0 : cdns_mhdp_mailbox_send io s MB_MODULE_ID_DP_TX
      DPTX_TRAINING_CONTROL [LINK_TRAINING_RUN] =
      (0, ⟨s.rp, s.wp + 5, s.sent ++ [9, 1, 0, 1, 1]⟩) := by
    refine (mailbox_send_ok io s MB_MODULE_ID_DP_TX DPTX_TRAINING_CONTROL
      [LINK_TRAINING_RUN] (fun i hi => hw i (by simp at hi; omega))).trans ?_
    norm_num [mboxHeader, MB_MODULE_ID_DP_TX, DPTX_TRAINING_CONTROL,
      LINK_TRAINING_RUN]
  have hpoll : (trainingPoll io N
      ⟨s.rp, s.wp + 5, s.sent ++ [9, 1, 0, 1, 1]⟩).1 = -ETIMEDOUT := by
    refine trainingPoll_timeout io N _
      (fun i hi => by
        have := hw (5 + i) (by omega)
        simpa [Nat.add_assoc] using this)
      (fun j hj => hr j hj)
      (fun k hk => hh k hk)
  have hts1 : (cdns_mhdp_training_start io s N).1 = -ETIMEDOUT := by
    simp only [cdns_mhdp_training_start]
    rw [hsend0]
    dsimp only
    rw [if_neg (by simp)]
    exact hpoll
  simp only [cdns_mhdp_train_link]
  rw [if_pos (by rw [hts1]; decide)]
  rw [hts1]

/-- Witness for C4: on the channel `ioTrainNoEq` (well-formed events,
flag always clear) a two-round time budget times out, the link state is
left at `link0` and the channel state is training-start's own. -/
theorem C4_train_link_timeout_spec_witness :
    cdns_mhdp_train_link ioTrainNoEq s0 link0 2 =
      (-ETIMEDOUT, (cdns_mhdp_training_start ioTrainNoEq s0 2).2, link0) := by
  exact C4_train_link_timeout_spec ioTrainNoEq s0 link0 2
    (by decide) (by decide) (by decide)

theorem tuSearchF_ok (clock bpp lanes lrate : Nat) :
    ∀ (fuel tu u sym : Nat), 66 ≤ tu + 2 * fuel →
    tuSearchF clock bpp lanes lrate fuel tu = .ok (u, sym) →
    tu < u ∧ u ≤ 64 ∧ (u - tu) % 2 = 0 ∧
    tuAccept clock bpp lanes lrate u ∧
    sym = tuTotal clock bpp lanes lrate u / 1000 ∧
    ∀ v, tu < v → v < u → (v - tu) % 2 = 0 →
      ¬ tuAccept clock bpp lanes lrate v := by
  intro fuel
  induction fuel with
  | zero =>
    intro tu u sym hfuel h
    exact absurd h (by simp [tuSearchF])
  | succ fuel ih =>
    intro tu u sym hfuel h
    simp only [tuSearchF] at h
    split at h
    · exact absurd h (by simp)
    · rename_i h64
      split at h
      · rename_i hrej
        obtain ⟨hlt, hle, hpar, hacc, hsym, hmin⟩ :=
          ih (tu + 2) u sym (by omega) h
        refine ⟨by omega, hle, by omega, hacc, hsym, ?_⟩
        intro v hv1 hv2 hvpar
        by_cases hveq : v = tu + 2
        · subst hveq
          intro hacc2
          obtain ⟨p1, p2, p3, p4⟩ := hacc2
          rcases hrej with hx | hx | hx | hx <;> omega
        · exact hmin v (by omega) hv2 (by omega)
      · rename_i hrej
        simp only [Except.ok.injEq, Prod.mk.injEq] at h
        obtain ⟨h1, h2⟩ := h
        subst h1
        subst h2
        push_neg at hrej
        obtain ⟨q1, q2, q3, q4⟩ := hrej
        refine ⟨by omega, by omega, by omega, ⟨by omega, by omega, by omega⟩,
          rfl, ?_⟩
        intro v hv1 hv2 hvpar
        omega

theorem tuSearchF_err (clock bpp lanes lrate : Nat) :
    ∀ (fuel tu : Nat) (e : Int), 66 ≤ tu + 2 * fuel →
    tuSearchF clock bpp lanes lrate fuel tu = .error e →
    e = -EINVAL ∧
    ∀ v, tu < v → v ≤ 64 → (v - tu) % 2 = 0 →
      ¬ tuAccept clock bpp lanes lrate v := by
  intro fuel
  induction fuel with
  | zero =>
    intro tu e hfuel h
    simp only [tuSearchF, Except.error.injEq] at h
    refine ⟨h.symm, ?_⟩
    intro v hv1 hv2 hvpar
    omega
  | succ fuel ih =>
    intro tu e hfuel h
    simp only [tuSearchF] at h
    split at h
    · rename_i h64
      simp only [Except.error.injEq] at h
      refine ⟨h.symm, ?_⟩
      intro v hv1 hv2 hvpar
      omega
    · rename_i h64
      split at h
      · rename_i hrej
        obtain ⟨he, hmin⟩ := ih (tu + 2) e (by omega) h
        refine ⟨he, ?_⟩
        intro v hv1 hv2 hvpar
        by_cases hveq : v = tu + 2
        · subst hveq
          intro hacc2
          obtain ⟨p1, p2, p3, p4⟩ := hacc2
          rcases hrej with hx | hx | hx | hx <;> omega
        · exact hmin v (by omega) hv2 (by omega)
      · exact absurd h (by simp)

/-- Counterexample for C2: the claim's acceptance condition is not the
code's.  First, the milli remainder bound is inclusive, not strict: for
clock 475, bpp 12, 1 lane, rate 8000 the search accepts `tu_size` 32
whose remainder is exactly 850, which is not strictly between 100 and
850.  Second, the margin test is a wrapping `u64` subtraction: for clock
3375, bpp 24, 1 lane, rate 8000 the search accepts `tu_size` 32 with
integer part 40, although the claimed margin `tu_size - integer_part ≥ 4`
fails (it is `-8`). -/
theorem C2_config_video_tu_strict_bounds_false :
    (cdns_mhdp_config_video_tu 475 12 1 8000 = .ok (32, 2) ∧
     tuTotal 475 12 1 8 32 % 1000 = 850 ∧
     ¬ tuTotal 475 12 1 8 32 % 1000 < 850) ∧
    (cdns_mhdp_config_video_tu 3375 24 1 8000 = .ok (32, 40) ∧
     ¬ (4 : Int) ≤ (32 : Int) - (tuTotal 3375 24 1 8 32 / 1000 : Nat)) := by
  exact ⟨⟨by decide, by decide, by decide⟩, ⟨by decide, by decide⟩⟩

/-- Claim C2 (amended): for every pixel clock, bits-per-pixel, lane
count and link rate, the transfer-unit search of
`cdns_mhdp_config_video` examines `tu_size` values increasing by 2 from
the fixed base `TU_SIZE` and accepts the smallest one (at most 64) whose
computed valid-symbol value has integer part > 1, wrapped 64-bit margin
`tu_size - integer_part` at least 4 (which also admits integer parts
exceeding `tu_size`), and milli-unit remainder between 100 and 850
inclusive; if no `tu_size` up to 64 satisfies these constraints the
operation fails with `-EINVAL` (InvalidArgument). -/
theorem C2_config_video_tu_spec (clock bpp lanes rate : Nat) :
    (∀ u sym, cdns_mhdp_config_video_tu clock bpp lanes rate = .ok (u, sym) →
      TU_SIZE < u ∧ u ≤ 64 ∧ (u - TU_SIZE) % 2 = 0 ∧
      tuAccept clock bpp lanes (rate / 1000) u ∧
      sym = tuTotal clock bpp lanes (rate / 1000) u / 1000 ∧
      ∀ v, TU_SIZE < v → v < u → (v - TU_SIZE) % 2 = 0 →
        ¬ tuAccept clock bpp lanes (rate / 1000) v) ∧
    (∀ e, cdns_mhdp_config_video_tu clock bpp lanes rate = .error e →
      e = -EINVAL ∧
      ∀ v, TU_SIZE < v → v ≤ 64 → (v - TU_SIZE) % 2 = 0 →
        ¬ tuAccept clock bpp lanes (rate / 1000) v) := by
  constructor
  · intro u sym h
    exact tuSearchF_ok clock bpp lanes (rate / 1000) 32 TU_SIZE u sym
      (by decide) h
  · intro e h
    exact tuSearchF_err clock bpp lanes (rate / 1000) 32 TU_SIZE e
      (by decide) h

/-- Witness for C2 (amended): for the HBR3-style example (clock 148500,
bpp 24, 4 lanes, rate 540000) the search returns `tu_size` 32 with
integer part 6, and 32 is accepted, within bounds, on the step-2 grid,
and minimal. -/
theorem C2_config_video_tu_spec_witness :
    TU_SIZE < 32 ∧ 32 ≤ 64 ∧ (32 - TU_SIZE) % 2 = 0 ∧
    tuAccept 148500 24 4 (540000 / 1000) 32 ∧
    6 = tuTotal 148500 24 4 (540000 / 1000) 32 / 1000 ∧
    ∀ v, TU_SIZE < v → v < 32 → (v - TU_SIZE) % 2 = 0 →
      ¬ tuAccept 148500 24 4 (540000 / 1000) v :=
  (C2_config_video_tu_spec 148500 24 4 540000).1 32 6 (by decide)

end LsdkLinux
